import Mathlib

/-!
Verification development for the Nexus (Quivr Brain Integration) gateway.

The TypeScript gateway (typescript-client/src) is embedded from its source:
Zod schemas, the multer upload filter, the error-handler middleware, the
health route and the client path construction.  The Python quivr-service
(brain registry, streaming route, query service) is not part of the
available sources; those components are modelled from the specification,
as marked on each definition.
-/

namespace Nexus

/-! ## Zod schemas (typescript-client/src/types/schemas.ts) -/

/-- Raw JSON payload for brain creation: every field may be absent. -/
structure BrainCreateInput where
  name : Option String
  description : Option String
  llm_provider : Option String
  model : Option String
deriving DecidableEq, Repr

/-- Parsed brain-creation payload (z.infer of BrainCreateSchema). -/
structure BrainCreate where
  name : String
  description : Option String
  llm_provider : String
  model : String
deriving DecidableEq, Repr

/-- Enumeration in BrainCreateSchema: z.enum(['anthropic', 'openai', 'mistral']). -/
def ALLOWED_PROVIDERS : List String := ["anthropic", "openai", "mistral"]

/-- Default of the model field in BrainCreateSchema. -/
def DEFAULT_MODEL : String := "claude-3-5-sonnet-20241022"

/-- BrainCreateSchema.parse: name 1..100 chars required, description at most
500 chars optional, llm_provider from the closed enumeration with default
anthropic, model defaulting to the fixed string DEFAULT_MODEL. -/
def BrainCreateSchema.parse (i : BrainCreateInput) : Except String BrainCreate :=
  match i.name with
  | none => .error ("name: Required")
  | some n =>
    if n.length < 1 then .error ("name: too short")
    else if 100 < n.length then .error ("name: too long")
    else if 500 < (i.description.map String.length).getD 0 then .error ("description: too long")
    else
      match i.llm_provider with
      | some p =>
        if ALLOWED_PROVIDERS.contains p then
          .ok { name := n, description := i.description, llm_provider := p,
                model := i.model.getD DEFAULT_MODEL }
        else .error ("llm_provider: invalid enum value")
      | none =>
        .ok { name := n, description := i.description, llm_provider := "anthropic",
              model := i.model.getD DEFAULT_MODEL }

/-- Raw JSON payload of a query request: numbers arrive as arbitrary JSON
numbers, modelled as rationals. -/
structure QueryRequestInput where
  question : Option String
  max_tokens : Option ℚ
  temperature : Option ℚ
deriving DecidableEq, Repr

/-- Parsed query request (z.infer of QueryRequestSchema). -/
structure QueryRequest where
  question : String
  max_tokens : ℚ
  temperature : ℚ
deriving DecidableEq, Repr

/-- QueryRequestSchema.parse: question 1..2000 chars required, max_tokens an
integer in 100..4096 defaulting to 1024, temperature in 0..1 defaulting
to 0.7. -/
def QueryRequestSchema.parse (i : QueryRequestInput) : Except String QueryRequest :=
  match i.question with
  | none => .error ("question: Required")
  | some q =>
    if q.length < 1 then .error ("question: too short")
    else if 2000 < q.length then .error ("question: too long")
    else
      let mt := i.max_tokens.getD 1024
      let tp := i.temperature.getD (7/10)
      if mt.den ≠ 1 then .error ("max_tokens: Expected integer")
      else if mt < 100 then .error ("max_tokens: too small")
      else if 4096 < mt then .error ("max_tokens: too large")
      else if tp < 0 then .error ("temperature: too small")
      else if 1 < tp then .error ("temperature: too large")
      else .ok { question := q, max_tokens := mt, temperature := tp }

/-! ## Error handling (client/quivr-client.ts and middleware/error-handler.ts) -/

/-- The HTTP response attached to an axios error, when the quivr-service
answered at all; data is modelled by its detail field. -/
structure EngineHttpResponse where
  status : Nat
  detail : Option String
deriving DecidableEq, Repr

/-- An axios error: a timeout or connection failure carries no response. -/
structure AxiosErrorModel where
  message : String
  response : Option EngineHttpResponse
deriving DecidableEq, Repr

/-- QuivrClientError as thrown by QuivrClient.setupInterceptors. -/
structure QuivrClientError where
  message : String
  statusCode : Option Nat
deriving DecidableEq, Repr

/-- QuivrClient.setupInterceptors response interceptor: message is
data.detail when present, else the axios message; statusCode is the
response status when a response exists. -/
def interceptError (e : AxiosErrorModel) : QuivrClientError :=
  { message := (e.response.bind EngineHttpResponse.detail).getD e.message,
    statusCode := e.response.map EngineHttpResponse.status }

/-- The classes of errors reaching the global errorHandler middleware. -/
inductive GatewayError
  | zodErr (details : List String)
  | quivrErr (e : QuivrClientError)
  | genericErr (message : String)
deriving DecidableEq, Repr

/-- errorHandler middleware: ZodError to 400, QuivrClientError to its
statusCode or 500 when absent, anything else to 500.  Result is the HTTP
status paired with the error field of the JSON body. -/
def errorHandler : GatewayError → Nat × String
  | .zodErr _ => (400, "Validation error")
  | .quivrErr e => (e.statusCode.getD 500, e.message)
  | .genericErr _ => (500, "Internal server error")

/-- The axios error produced when the 60s client timeout fires: axios
rejects with a timeout message and no HTTP response. -/
def engineTimeoutError : AxiosErrorModel :=
  { message := "timeout of 60000ms exceeded", response := none }

/-! ## Health route (routes/health.ts) -/

/-- Health status enumeration of HealthResponseSchema. -/
inductive EngineHealth
  | healthy | degraded | unhealthy
deriving DecidableEq, Repr

/-- The string the quivr-service reports for each health status. -/
def EngineHealth.label : EngineHealth → String
  | .healthy => "healthy"
  | .degraded => "degraded"
  | .unhealthy => "unhealthy"

/-- JSON body returned by GET /health. -/
structure HealthBody where
  typescript_service : String
  python_service : String
  errMsg : Option String
deriving DecidableEq, Repr

/-- GET /health handler: on a successful engine health call it returns 200
with both statuses; when the call throws it still answers, with 503 and
the engine marked unhealthy. -/
def healthRoute : Except String EngineHealth → Nat × HealthBody
  | .ok h => (200, { typescript_service := "healthy", python_service := h.label, errMsg := none })
  | .error m => (503, { typescript_service := "healthy", python_service := "unhealthy",
                        errMsg := some m })

/-- Gateway-side observable outcome of POST /brains/:id/query. -/
structure QueryRouteOutcome where
  status : Nat
  engineCalls : Nat
deriving DecidableEq, Repr

/-- POST /brains/:id/query handler of routes/brains.ts: the body passes
QueryRequestSchema.parse before quivrClient.queryBrain runs; a parse
failure throws the ZodError to the errorHandler and the engine is never
called. -/
def queryRoute (i : QueryRequestInput) (engineStatus : Nat) : QueryRouteOutcome :=
  match QueryRequestSchema.parse i with
  | .error e => { status := (errorHandler (GatewayError.zodErr [e])).1, engineCalls := 0 }
  | .ok _ => { status := engineStatus, engineCalls := 1 }

/-! ## Upload middleware (typescript-client/src/middleware/upload.ts) -/

/-- Allowed MIME types for document upload. -/
def ALLOWED_MIME_TYPES : List String :=
  ["application/pdf", "text/plain", "text/markdown", "application/msword",
   "application/vnd.openxmlformats-officedocument.wordprocessingml.document",
   "text/csv", "application/json"]

/-- Allowed file extensions for document upload. -/
def ALLOWED_EXTENSIONS : List String :=
  [".pdf", ".txt", ".md", ".doc", ".docx", ".csv", ".json"]

/-- Maximum file size: 50MB. -/
def MAX_FILE_SIZE : Nat := 50 * 1024 * 1024

/-- Maximum number of files per upload. -/
def MAX_FILES : Nat := 20

/-- A multer file: original name, declared MIME type and size in bytes. -/
structure UploadFile where
  originalname : String
  mimetype : String
  size : Nat
deriving DecidableEq, Repr

/-- String.toLower: lower-case every character (String.mk keeps the model
kernel-computable). -/
def lowerString (s : String) : String := String.mk (s.data.map Char.toLower)

/-- path.extname: the extension of the basename, from its last dot to the
end; empty when there is no dot or the basename starts with its only dot. -/
def extname (name : String) : String :=
  let b := (name.data.reverse.takeWhile (fun c => c ≠ '/')).reverse
  let pre := b.reverse.takeWhile (fun c => c ≠ '.')
  if pre.length + 1 < b.length then String.mk ('.' :: pre.reverse) else ""

/-- fileFilter of the multer configuration: the lowercased extension must be
in ALLOWED_EXTENSIONS and the declared MIME type in ALLOWED_MIME_TYPES;
otherwise the callback receives an error whose text names the offending
extension or MIME type. -/
def fileFilter (f : UploadFile) : Except String Unit :=
  let ext := lowerString (extname f.originalname)
  if ¬ ALLOWED_EXTENSIONS.contains ext then
    .error ("File type not allowed: " ++ ext ++ ". Allowed types: "
            ++ String.intercalate (", ") ALLOWED_EXTENSIONS)
  else if ¬ ALLOWED_MIME_TYPES.contains f.mimetype then
    .error ("MIME type not allowed: " ++ f.mimetype)
  else .ok ()

/-- One multer file acceptance step: fileFilter, then the fileSize limit
enforced while the accepted file is written to disk. -/
def fileCheck (f : UploadFile) : Except String Unit :=
  match fileFilter f with
  | .error m => .error m
  | .ok _ => if MAX_FILE_SIZE < f.size then .error ("File too large") else .ok ()

/-- Multer processes the incoming files in order and aborts the whole
request at the first failing file. -/
def filterBatch : List UploadFile → Except String (List UploadFile)
  | [] => .ok []
  | f :: fs =>
    match fileCheck f with
    | .error m => .error m
    | .ok _ =>
      match filterBatch fs with
      | .error m => .error m
      | .ok rest => .ok (f :: rest)

/-- upload.array with the files limit of the multer configuration: more
than MAX_FILES files aborts with a limit error, otherwise every file
passes fileCheck or the batch is aborted.  On abort multer removes the
files it had already stored. -/
def multerAccept (files : List UploadFile) : Except String (List UploadFile) :=
  if MAX_FILES < files.length then .error ("Too many files")
  else filterBatch files

/-- The unique staging path multer assigns inside the uploads directory
(the unique suffix is irrelevant to the claims and omitted). -/
def tempPath (f : UploadFile) : String := "uploads/" ++ f.originalname

/-- cleanupFiles of upload.ts: unlinks the staging path of every file of
the request; the result is the temp storage without those paths. -/
def cleanupFiles (files : List UploadFile) (temp : List String) : List String :=
  temp.filter (fun p => ¬ files.any (fun f => tempPath f = p))

/-- Observable outcome of one POST /brains/:id/documents request. -/
structure UploadOutcome where
  status : Nat
  errMsg : Option String
  persisted : List String
  tempLeft : List String
deriving DecidableEq, Repr

/-- The upload route of routes/brains.ts: multer first stages the files
(aborting, with its staged files removed, on any invalid file); a multer
or fileFilter error is a plain Error — neither ZodError nor
QuivrClientError — so the global errorHandler answers it through its
generic branch.  The handler rejects an empty batch with 400, otherwise
it forwards the files to the quivr-service and calls cleanupFiles on the
success path and on the error path alike.  persisted records what this
request added to the document store; tempLeft the staging files left
behind. -/
def uploadRoute (files : List UploadFile) (engineOk : Bool) : UploadOutcome :=
  match multerAccept files with
  | .error m =>
    { status := (errorHandler (GatewayError.genericErr m)).1, errMsg := some m,
      persisted := [], tempLeft := [] }
  | .ok stored =>
    let temp := stored.map tempPath
    if stored.isEmpty then
      { status := 400, errMsg := some ("No files provided"), persisted := [], tempLeft := temp }
    else if engineOk then
      { status := 201, errMsg := none, persisted := stored.map UploadFile.originalname,
        tempLeft := cleanupFiles stored temp }
    else
      { status := 500, errMsg := some ("engine failure"), persisted := [],
        tempLeft := cleanupFiles stored temp }

/-- A file is valid when its extension and MIME type are allowed and it is
within the size limit. -/
def fileOk (f : UploadFile) : Bool :=
  ALLOWED_EXTENSIONS.contains (lowerString (extname f.originalname))
    && ALLOWED_MIME_TYPES.contains f.mimetype
    && decide (f.size ≤ MAX_FILE_SIZE)

/-- Substring test on character lists, used to state what an error message
does or does not mention. -/
def listContains (hay needle : List Char) : Bool :=
  match hay with
  | [] => needle.isEmpty
  | _ :: t => needle.isPrefixOf hay || listContains t needle

/-! ## Brain registry (modelled from the spec) -/

/-- Modelled from the spec: the quivr-service Brain Registry is not under
src/; per the spec a brain carries its stored document names and a
document_count field, an integer per BrainResponseSchema, that must track
the number of stored documents. -/
structure BrainState where
  docs : List String
  document_count : ℤ
deriving DecidableEq, Repr

/-- A freshly created brain: no documents, document_count = 0. -/
def initBrain : BrainState := { docs := [], document_count := 0 }

/-- Candidate names used to resolve a name collision by suffixing. -/
def suffixCandidate (n : String) : Nat → String
  | 0 => n
  | k + 1 => n ++ "-" ++ toString (k + 1)

/-- Modelled from the spec: document names are unique within a brain,
collisions resolved by suffixing, never silent overwrite. -/
def resolveName (docs : List String) (n : String) : String :=
  match (List.range (docs.length + 1)).find?
      (fun k => ¬ docs.contains (suffixCandidate n k)) with
  | some k => suffixCandidate n k
  | none => suffixCandidate n (docs.length + 1)

/-- Store the accepted files one by one, each under a collision-resolved
name. -/
def storeDocs (docs : List String) : List UploadFile → List String
  | [] => docs
  | f :: fs => storeDocs (docs ++ [resolveName docs f.originalname]) fs

/-- Document operations a brain observes. -/
inductive DocOp
  | upload (files : List UploadFile)
  | remove (name : String)
deriving Repr

/-- Modelled from the spec: the registry's reaction to one operation.  A
validated upload persists every file and increments document_count by the
number of files; a failed upload (invalid batch) changes nothing; remove
deletes a stored document and decrements the count, and fails with
NotFoundError, changing nothing, when the document is absent. -/
def applyOp (s : BrainState) : DocOp → BrainState
  | .upload files =>
    match multerAccept files with
    | .error _ => s
    | .ok stored =>
      if stored.isEmpty then s
      else { docs := storeDocs s.docs stored,
             document_count := s.document_count + stored.length }
  | .remove n =>
    if s.docs.contains n then
      { docs := s.docs.erase n, document_count := s.document_count - 1 }
    else s

/-- Run a sequence of document operations from a state. -/
def runOps (s : BrainState) : List DocOp → BrainState
  | [] => s
  | op :: ops => runOps (applyOp s op) ops

/-! ## Streaming query orchestrator (modelled from the spec) -/

/-- The discriminated events of the streaming protocol. -/
inductive StreamEvent
  | content (text : String)
  | sources (cites : List String)
  | done
  | error (message : String)
deriving DecidableEq, Repr

/-- done and error are the terminal events. -/
def StreamEvent.isTerminal : StreamEvent → Bool
  | .content _ => false
  | .sources _ => false
  | .done => true
  | .error _ => true

def StreamEvent.isContent : StreamEvent → Bool
  | .content _ => true
  | .sources _ => false
  | .done => false
  | .error _ => false

def StreamEvent.isSources : StreamEvent → Bool
  | .content _ => false
  | .sources _ => true
  | .done => false
  | .error _ => false

/-- Modelled from the spec: the quivr-service streaming route is not under
src/; per the spec it chunks the generated answer into content events in
generation order, then emits the source list once, then done. -/
def successEvents (chunks : List String) (cites : List String) : List StreamEvent :=
  chunks.map StreamEvent.content ++ [StreamEvent.sources cites, StreamEvent.done]

/-- Modelled from the spec: a run of the orchestrator.  failAt = none is
the failure-free run; failAt = some k cuts the stream after k events
(at the latest after the sources event, since a generator cannot fail
once done is emitted) and terminates it with a single error event. -/
def streamEvents (chunks : List String) (cites : List String) : Option Nat → List StreamEvent
  | none => successEvents chunks cites
  | some k =>
    (successEvents chunks cites).take (min k (chunks.length + 1))
      ++ [StreamEvent.error ("stream failed")]

/-! ## Query execution (modelled from the spec) -/

/-- The error taxonomy of the query path. -/
inductive QueryError
  | notFound
  | emptyBrain
  | validation (message : String)
deriving DecidableEq, Repr

/-- HTTP status of each query error per the taxonomy and the API docs
(404 brain not found, 400 brain has no documents, 400 validation). -/
def QueryError.httpStatus : QueryError → Nat
  | .notFound => 404
  | .emptyBrain => 400
  | .validation _ => 400

/-- Outcome of one query: the result and how often the engine ran. -/
structure QueryRun where
  result : Except QueryError String
  engineCalls : Nat
deriving Repr

/-- Modelled from the spec: the quivr-service query endpoint is not under
src/; per the spec it requires the brain to exist (NotFoundError), then
requires document_count to be positive (EmptyBrainError, before any
engine work), and only then invokes the Retrieval-Generation Engine. -/
def queryService (brains : List (String × BrainState)) (id : String)
    (engineAnswer : String) : QueryRun :=
  match brains.lookup id with
  | none => { result := .error QueryError.notFound, engineCalls := 0 }
  | some b =>
    if b.document_count = 0 then
      { result := .error QueryError.emptyBrain, engineCalls := 0 }
    else
      { result := .ok engineAnswer, engineCalls := 1 }

/-! ## encodeURIComponent / decodeURIComponent (ECMA-262), used by
QuivrClient.getDocument and QuivrClient.deleteDocument -/

/-- The characters encodeURIComponent leaves unescaped: letters, digits
and - _ . ! ~ * apostrophe ( ). -/
def isUnreservedURIChar (c : Char) : Bool :=
  (65 ≤ c.toNat && c.toNat ≤ 90) || (97 ≤ c.toNat && c.toNat ≤ 122)
    || (48 ≤ c.toNat && c.toNat ≤ 57)
    || [45, 95, 46, 33, 126, 42, 39, 40, 41].contains c.toNat

/-- Upper-case hexadecimal digit of a value below 16. -/
def hexDigitUpper (n : Nat) : Char :=
  if n < 10 then Char.ofNat (48 + n) else Char.ofNat (55 + n)

/-- The UTF-8 encoding of one scalar value, as byte values. -/
def utf8Bytes (c : Char) : List Nat :=
  let n := c.toNat
  if n < 128 then [n]
  else if n < 2048 then [192 + n / 64, 128 + n % 64]
  else if n < 65536 then [224 + n / 4096, 128 + n / 64 % 64, 128 + n % 64]
  else [240 + n / 262144, 128 + n / 4096 % 64, 128 + n / 64 % 64, 128 + n % 64]

/-- Percent-escape of one byte, with upper-case hex digits. -/
def pctEncodeByte (b : Nat) : List Char :=
  ['%', hexDigitUpper (b / 16), hexDigitUpper (b % 16)]

/-- encodeURIComponent on one character. -/
def encodeChar (c : Char) : List Char :=
  if isUnreservedURIChar c then [c] else (utf8Bytes c).flatMap pctEncodeByte

/-- encodeURIComponent over a string given as its characters. -/
def encodeURIComponent (s : List Char) : List Char :=
  s.flatMap encodeChar

/-- Value of one hexadecimal digit, either case. -/
def hexVal (c : Char) : Option Nat :=
  if 48 ≤ c.toNat ∧ c.toNat ≤ 57 then some (c.toNat - 48)
  else if 65 ≤ c.toNat ∧ c.toNat ≤ 70 then some (c.toNat - 55)
  else if 97 ≤ c.toNat ∧ c.toNat ≤ 102 then some (c.toNat - 87)
  else none

/-- One unit of a percent-encoded string: a literal character or an
escaped byte. -/
inductive URIToken
  | lit (c : Char)
  | byte (b : Nat)
deriving DecidableEq, Repr

/-- First phase of ECMA-262 Decode: each percent sign must begin a valid
two-digit escape; everything else stays literal. -/
def tokenize : List Char → Option (List URIToken)
  | [] => some []
  | c :: rest =>
    if c = '%' then
      match rest with
      | h1 :: h2 :: rest2 =>
        match hexVal h1, hexVal h2 with
        | some a, some b => (tokenize rest2).map (fun ts => URIToken.byte (16 * a + b) :: ts)
        | _, _ => none
      | _ => none
    else (tokenize rest).map (fun ts => URIToken.lit c :: ts)

/-- Payload of a UTF-8 continuation byte; only escaped bytes in 128..191
qualify. -/
def contVal : URIToken → Option Nat
  | .byte b => if 128 ≤ b ∧ b < 192 then some (b % 64) else none
  | .lit _ => none

mutual

/-- Second phase of ECMA-262 Decode: escaped bytes are decoded as minimal
UTF-8 sequences of valid scalar values; malformed sequences fail.  A
leading byte hands over to decodeCont, which collects the required
continuation bytes and checks the scalar is at least the minimum for the
sequence length and a valid (non-surrogate, in-range) scalar value. -/
def decodeTokens : List URIToken → Option (List Char)
  | [] => some []
  | URIToken.lit c :: ts => (decodeTokens ts).map (fun s => c :: s)
  | URIToken.byte b :: ts =>
    if b < 128 then (decodeTokens ts).map (fun s => Char.ofNat b :: s)
    else if b < 192 then none
    else if b < 224 then decodeCont 1 (b - 192) 128 ts
    else if b < 240 then decodeCont 2 (b - 224) 2048 ts
    else if b < 248 then decodeCont 3 (b - 240) 65536 ts
    else none
  termination_by ts => (ts.length, 0)

/-- Collect k continuation bytes into the accumulated scalar value, then
check the overlong bound and scalar validity and continue decoding. -/
def decodeCont : Nat → Nat → Nat → List URIToken → Option (List Char)
  | 0, acc, lo, ts =>
    if lo ≤ acc ∧ (acc < 55296 ∨ (57344 ≤ acc ∧ acc < 1114112)) then
      (decodeTokens ts).map (fun s => Char.ofNat acc :: s)
    else none
  | k + 1, acc, lo, t :: ts =>
    match contVal t with
    | some v => decodeCont k (acc * 64 + v) lo ts
    | none => none
  | _ + 1, _, _, [] => none
  termination_by k _ _ ts => (ts.length, k + 1)

end

/-- decodeURIComponent over a string given as its characters. -/
def decodeURIComponent (s : List Char) : Option (List Char) :=
  (tokenize s).bind decodeTokens

/-- Request path built by QuivrClient.getDocument. -/
def getDocumentRequestPath (brainId documentName : List Char) : List Char :=
  ("/brains/").data ++ brainId ++ ("/documents/").data ++ encodeURIComponent documentName

/-- Request path built by QuivrClient.deleteDocument. -/
def deleteDocumentRequestPath (brainId documentName : List Char) : List Char :=
  ("/brains/").data ++ brainId ++ ("/documents/").data ++ encodeURIComponent documentName

/-! ## Theorems -/

/-- C7 (amended): the errorHandler maps validation errors to 400 and
unexpected errors to 500; engine errors that carry an HTTP response pass
that status through (so an engine 503 or 404 surfaces as such), while
engine failures without a response — timeouts and connection failures —
surface as 500, not 503. -/
theorem claim_C7 (d : List String) (m msg : String) (s : Nat) (det : Option String) :
    (errorHandler (GatewayError.zodErr d)).1 = 400
    ∧ (errorHandler (GatewayError.quivrErr (interceptError
        { message := m, response := some { status := s, detail := det } }))).1 = s
    ∧ (errorHandler (GatewayError.quivrErr (interceptError
        { message := m, response := none }))).1 = 500
    ∧ (errorHandler (GatewayError.genericErr msg)).1 = 500 := by
  refine ⟨rfl, ?_, rfl, rfl⟩
  simp [errorHandler, interceptError]

/-- C7 counterexample: when the 60s engine timeout fires, the axios error
carries no response, so the interceptor leaves statusCode empty and the
errorHandler answers 500 — not 503 as the claim requires. -/
theorem claim_C7_counterexample :
    (errorHandler (GatewayError.quivrErr (interceptError engineTimeoutError))).1 = 500
    ∧ (errorHandler (GatewayError.quivrErr (interceptError engineTimeoutError))).1 ≠ 503 := by
  exact ⟨rfl, by decide⟩

/-- C9: GET /health always answers with the gateway status and the engine
status in one body; a successful engine health call yields 200 with the
engine's reported status, a failing one still yields a response, with
status 503 and the engine marked unhealthy. -/
theorem claim_C9 (r : Except String EngineHealth) :
    (healthRoute r).2.typescript_service = "healthy"
    ∧ (∀ h, r = .ok h → healthRoute r =
        (200, { typescript_service := "healthy", python_service := h.label, errMsg := none }))
    ∧ (∀ m, r = .error m →
        (healthRoute r).1 = 503 ∧ (healthRoute r).2.python_service = "unhealthy") := by
  cases r <;> simp [healthRoute]

/-- C9 witness: concrete engine outcomes. -/
theorem claim_C9_witness :
    healthRoute (Except.ok EngineHealth.degraded) =
      (200, { typescript_service := "healthy", python_service := "degraded", errMsg := none })
    ∧ (healthRoute (Except.error ("engine down"))).1 = 503
    ∧ (healthRoute (Except.error ("engine down"))).2.python_service = "unhealthy" :=
  ⟨(claim_C9 (Except.ok EngineHealth.degraded)).2.1 EngineHealth.degraded rfl,
   ((claim_C9 (Except.error ("engine down"))).2.2 ("engine down") rfl).1,
   ((claim_C9 (Except.error ("engine down"))).2.2 ("engine down") rfl).2⟩

/-- C8 (amended): brain creation accepts its input exactly when name is
present with 1..100 characters, description is absent or at most 500
characters, and llm_provider is absent or one of the closed enumeration;
llm_provider defaults to anthropic and model defaults to the fixed
string claude-3-5-sonnet-20241022 irrespective of the provider; any
out-of-range field makes the parse fail. -/
theorem claim_C8 (i : BrainCreateInput) :
    ((∃ r, BrainCreateSchema.parse i = .ok r) ↔
      ((∃ n, i.name = some n ∧ 1 ≤ n.length ∧ n.length ≤ 100)
        ∧ (∀ d, i.description = some d → d.length ≤ 500)
        ∧ (∀ p, i.llm_provider = some p → p ∈ ALLOWED_PROVIDERS)))
    ∧ (∀ r, BrainCreateSchema.parse i = .ok r →
        (i.llm_provider = none → r.llm_provider = "anthropic")
        ∧ (i.model = none → r.model = DEFAULT_MODEL)
        ∧ (∀ n, i.name = some n → r.name = n)) := by
  obtain ⟨oname, odesc, oprov, omodel⟩ := i
  constructor
  · constructor
    · rintro ⟨r, hr⟩
      cases oname with
      | none => exact absurd hr (by simp [BrainCreateSchema.parse])
      | some n =>
        simp only [BrainCreateSchema.parse] at hr
        split_ifs at hr with h1 h2 h3
        · cases oprov with
          | none =>
            refine ⟨⟨n, rfl, by omega, by omega⟩, ?_, by simp⟩
            intro d hd
            subst hd
            simpa using h3
          | some p =>
            simp only at hr
            split_ifs at hr with h4
            refine ⟨⟨n, rfl, by omega, by omega⟩, ?_, ?_⟩
            · intro d hd
              subst hd
              simpa using h3
            · intro p2 hp2
              cases hp2
              simpa using h4
    · rintro ⟨⟨n, hn, hn1, hn2⟩, hd, hp⟩
      subst hn
      simp only [BrainCreateSchema.parse]
      rw [if_neg (by omega), if_neg (by omega), if_neg ?hdesc]
      case hdesc =>
        cases odesc with
        | none => simp
        | some d => simpa using hd d rfl
      cases oprov with
      | none => exact ⟨_, rfl⟩
      | some p =>
        simp only
        rw [if_pos ?hprov]
        case hprov => simpa using hp p rfl
        exact ⟨_, rfl⟩
  · intro r hr
    cases oname with
    | none => exact absurd hr (by simp [BrainCreateSchema.parse])
    | some n =>
      simp only [BrainCreateSchema.parse] at hr
      split_ifs at hr with h1 h2 h3
      · cases oprov with
        | none =>
          simp only at hr
          cases hr
          refine ⟨?_, ?_, ?_⟩
          · intro h
            rfl
          · intro hm
            subst hm
            rfl
          · intro n2 hn2
            cases hn2
            rfl
        | some p =>
          simp only at hr
          split_ifs at hr with h4
          cases hr
          refine ⟨?_, ?_, ?_⟩
          · intro h
            exact absurd h (by simp)
          · intro hm
            subst hm
            rfl
          · intro n2 hn2
            cases hn2
            rfl

/-- C8 counterexample: the model default is the one fixed anthropic model
string claude-3-5-sonnet-20241022 for every provider — a brain created
with llm_provider openai or mistral and no model still gets the claude
model, so the default is not provider-appropriate. -/
theorem claim_C8_counterexample :
    BrainCreateSchema.parse
        { name := some ("x"), description := none, llm_provider := some ("openai"), model := none }
      = .ok { name := "x", description := none, llm_provider := "openai",
              model := "claude-3-5-sonnet-20241022" }
    ∧ BrainCreateSchema.parse
        { name := some ("x"), description := none, llm_provider := some ("mistral"), model := none }
      = .ok { name := "x", description := none, llm_provider := "mistral",
              model := "claude-3-5-sonnet-20241022" }
    ∧ BrainCreateSchema.parse
        { name := some ("x"), description := none, llm_provider := some ("anthropic"), model := none }
      = .ok { name := "x", description := none, llm_provider := "anthropic",
              model := "claude-3-5-sonnet-20241022" } := by
  refine ⟨?_, ?_, ?_⟩ <;> rfl

/-- C8 witness: a valid creation is accepted, an empty name is rejected. -/
theorem claim_C8_witness :
    (∃ r, BrainCreateSchema.parse
        { name := some ("Docs"), description := none, llm_provider := none, model := none } = .ok r)
    ∧ ¬ (∃ r, BrainCreateSchema.parse
        { name := some (""), description := none, llm_provider := none, model := none } = .ok r) := by
  constructor
  · exact (claim_C8 _).1.mpr ⟨⟨"Docs", rfl, by decide, by decide⟩, by simp, by simp⟩
  · intro h
    obtain ⟨⟨n, hn, h1, h2⟩, -, -⟩ := (claim_C8 _).1.mp h
    cases hn
    exact absurd h1 (by decide)

/-- C5: a query request parses exactly when its question is present with
1..2000 characters, max_tokens (when given) is an integer in 100..4096,
and temperature (when given) lies in 0..1; absent fields default to 1024
and 0.7; a parse failure is answered 400 at the boundary and the engine
is never called. -/
theorem claim_C5 (i : QueryRequestInput) :
    ((∃ r, QueryRequestSchema.parse i = .ok r) ↔
      ((∃ q, i.question = some q ∧ 1 ≤ q.length ∧ q.length ≤ 2000)
        ∧ (∀ t, i.max_tokens = some t → t.den = 1 ∧ 100 ≤ t ∧ t ≤ 4096)
        ∧ (∀ t, i.temperature = some t → 0 ≤ t ∧ t ≤ 1)))
    ∧ (∀ r, QueryRequestSchema.parse i = .ok r →
        (i.max_tokens = none → r.max_tokens = 1024)
        ∧ (i.temperature = none → r.temperature = 7/10)
        ∧ (∀ q, i.question = some q → r.question = q))
    ∧ (∀ e, QueryRequestSchema.parse i = .error e →
        ∀ s, queryRoute i s = { status := 400, engineCalls := 0 }) := by
  obtain ⟨oq, omt, otp⟩ := i
  refine ⟨⟨?_, ?_⟩, ?_, ?_⟩
  · rintro ⟨r, hr⟩
    cases oq with
    | none => exact absurd hr (by simp [QueryRequestSchema.parse])
    | some q =>
      simp only [QueryRequestSchema.parse] at hr
      split_ifs at hr with h1 h2 h3 h4 h5 h6 h7
      refine ⟨⟨q, rfl, by omega, by omega⟩, ?_, ?_⟩
      · intro t ht
        subst ht
        simp only [Option.getD_some] at h3 h4 h5
        exact ⟨not_not.mp h3, not_lt.mp h4, not_lt.mp h5⟩
      · intro t ht
        subst ht
        simp only [Option.getD_some] at h6 h7
        exact ⟨not_lt.mp h6, not_lt.mp h7⟩
  · rintro ⟨⟨q, hq, hq1, hq2⟩, hmt, htp⟩
    subst hq
    simp only [QueryRequestSchema.parse]
    rw [if_neg (by omega), if_neg (by omega), if_neg ?hden, if_neg ?hlo, if_neg ?hhi,
        if_neg ?htlo, if_neg ?hthi]
    case hden =>
      cases omt with
      | none => norm_num
      | some t => simpa using (hmt t rfl).1
    case hlo =>
      cases omt with
      | none => norm_num
      | some t => simpa using not_lt.mpr (hmt t rfl).2.1
    case hhi =>
      cases omt with
      | none => norm_num
      | some t => simpa using not_lt.mpr (hmt t rfl).2.2
    case htlo =>
      cases otp with
      | none => norm_num
      | some t => simpa using not_lt.mpr (htp t rfl).1
    case hthi =>
      cases otp with
      | none => norm_num
      | some t => simpa using not_lt.mpr (htp t rfl).2
    exact ⟨_, rfl⟩
  · intro r hr
    cases oq with
    | none => exact absurd hr (by simp [QueryRequestSchema.parse])
    | some q =>
      simp only [QueryRequestSchema.parse] at hr
      split_ifs at hr with h1 h2 h3 h4 h5 h6 h7
      cases hr
      refine ⟨?_, ?_, ?_⟩
      · intro hm
        subst hm
        rfl
      · intro ht
        subst ht
        rfl
      · intro q2 hq2
        cases hq2
        rfl
  · intro e he s
    simp only [queryRoute, he]
    rfl

/-- C5 witness: a well-formed question is accepted; a request without a
question is rejected with 400 and zero engine calls. -/
theorem claim_C5_witness :
    (∃ r, QueryRequestSchema.parse
        { question := some ("What is this about?"), max_tokens := none, temperature := none }
      = .ok r)
    ∧ queryRoute { question := none, max_tokens := none, temperature := none } 200
      = { status := 400, engineCalls := 0 } := by
  constructor
  · exact (claim_C5 _).1.mpr ⟨⟨"What is this about?", rfl, by decide, by decide⟩, by simp, by simp⟩
  · exact (claim_C5 { question := none, max_tokens := none, temperature := none }).2.2
      ("question: Required") rfl 200

lemma fileCheck_ok_iff (f : UploadFile) : fileCheck f = .ok () ↔ fileOk f = true := by
  by_cases h1 : lowerString (extname f.originalname) ∈ ALLOWED_EXTENSIONS
  · by_cases h2 : f.mimetype ∈ ALLOWED_MIME_TYPES
    · by_cases h3 : f.size ≤ MAX_FILE_SIZE
      · simp [fileCheck, fileFilter, fileOk, h1, h2, h3, Nat.not_lt.mpr h3]
      · have h3lt : MAX_FILE_SIZE < f.size := by omega
        simp [fileCheck, fileFilter, fileOk, h1, h2, h3, h3lt]
    · simp [fileCheck, fileFilter, fileOk, h1, h2]
  · simp [fileCheck, fileFilter, fileOk, h1]

lemma filterBatch_ok (fs : List UploadFile) (h : ∀ f ∈ fs, fileOk f = true) :
    filterBatch fs = .ok fs := by
  induction fs with
  | nil => rfl
  | cons f fs ih =>
    have hf : fileCheck f = .ok () := (fileCheck_ok_iff f).mpr (h f (by simp))
    have hrest := ih (fun g hg => h g (by simp [hg]))
    simp [filterBatch, hf, hrest]

lemma filterBatch_ok_inv (fs l : List UploadFile) (h : filterBatch fs = .ok l) :
    l = fs ∧ ∀ f ∈ fs, fileOk f = true := by
  induction fs generalizing l with
  | nil =>
    simp only [filterBatch] at h
    cases h
    simp
  | cons f fs ih =>
    simp only [filterBatch] at h
    cases hc : fileCheck f with
    | error m => rw [hc] at h; exact absurd h (by simp)
    | ok u =>
      cases u
      rw [hc] at h
      cases hb : filterBatch fs with
      | error m => rw [hb] at h; exact absurd h (by simp)
      | ok rest =>
        rw [hb] at h
        cases h
        obtain ⟨rfl, hall⟩ := ih rest hb
        refine ⟨rfl, ?_⟩
        intro g hg
        rcases List.mem_cons.mp hg with rfl | hg2
        · exact (fileCheck_ok_iff g).mp hc
        · exact hall g hg2

lemma multerAccept_ok_inv (files l : List UploadFile) (h : multerAccept files = .ok l) :
    l = files ∧ files.length ≤ MAX_FILES ∧ ∀ f ∈ files, fileOk f = true := by
  unfold multerAccept at h
  split_ifs at h with hl
  obtain ⟨h1, h2⟩ := filterBatch_ok_inv files l h
  exact ⟨h1, by omega, h2⟩

lemma multerAccept_ok_of (files : List UploadFile) (hl : files.length ≤ MAX_FILES)
    (h : ∀ f ∈ files, fileOk f = true) : multerAccept files = .ok files := by
  unfold multerAccept
  rw [if_neg (by omega)]
  exact filterBatch_ok files h

lemma cleanupFiles_map_tempPath (s : List UploadFile) : cleanupFiles s (s.map tempPath) = [] := by
  rw [cleanupFiles, List.filter_eq_nil_iff]
  intro p hp
  obtain ⟨f, hf, rfl⟩ := List.mem_map.mp hp
  have hany : s.any (fun g => decide (tempPath g = tempPath f)) = true := by
    rw [List.any_eq_true]
    exact ⟨f, hf, by simp⟩
  simp [hany]

/-- C6: no request of the upload route leaves staging files behind — the
staging area is empty afterwards whether multer aborts, the batch is
empty, the engine forward succeeds, or it fails. -/
theorem claim_C6 (files : List UploadFile) (engineOk : Bool) :
    (uploadRoute files engineOk).tempLeft = [] := by
  unfold uploadRoute
  cases h : multerAccept files with
  | error m => rfl
  | ok stored =>
    cases stored with
    | nil => rfl
    | cons f fs =>
      cases engineOk
      · exact cleanupFiles_map_tempPath (f :: fs)
      · exact cleanupFiles_map_tempPath (f :: fs)

lemma fileCheck_error_not_ok (g : UploadFile) (m : String) (h : fileCheck g = .error m) :
    fileOk g = false := by
  cases hok : fileOk g
  · rfl
  · have hck := (fileCheck_ok_iff g).mpr hok
    rw [hck] at h
    cases h

lemma filterBatch_error_inv (fs : List UploadFile) (m : String)
    (h : filterBatch fs = .error m) :
    ∃ g ∈ fs, fileOk g = false ∧ fileCheck g = .error m := by
  induction fs with
  | nil => exact absurd h (by simp [filterBatch])
  | cons f fs ih =>
    simp only [filterBatch] at h
    cases hc : fileCheck f with
    | error m2 =>
      rw [hc] at h
      cases h
      exact ⟨f, by simp, fileCheck_error_not_ok f _ hc, hc⟩
    | ok u =>
      cases u
      rw [hc] at h
      cases hb : filterBatch fs with
      | error m2 =>
        rw [hb] at h
        cases h
        obtain ⟨g, hg, hbad, hcg⟩ := ih hb
        exact ⟨g, by simp [hg], hbad, hcg⟩
      | ok rest =>
        rw [hb] at h
        exact absurd h (by simp)

lemma fileCheck_error_forms (g : UploadFile) (m : String) (h : fileCheck g = .error m) :
    m = "File type not allowed: " ++ lowerString (extname g.originalname)
        ++ ". Allowed types: " ++ String.intercalate (", ") ALLOWED_EXTENSIONS
    ∨ m = "MIME type not allowed: " ++ g.mimetype
    ∨ m = "File too large" := by
  simp only [fileCheck] at h
  cases hf : fileFilter g with
  | error m2 =>
    rw [hf] at h
    cases h
    simp only [fileFilter] at hf
    split_ifs at hf <;> cases hf <;> simp
  | ok u =>
    cases u
    rw [hf] at h
    split_ifs at h
    cases h
    simp

/-- C2 (amended): an upload succeeds (201, files persisted) exactly when
the batch has 1..20 files, every file has an allowed extension and MIME
type and is at most 50MB, and the engine forward succeeds.  One invalid
file fails the whole batch with nothing persisted, but not with a
400-class validation error: the multer error reaches the errorHandler as
a plain Error and is answered 500; its message is the per-file check
error of an offending file, which names that file's extension or its
declared MIME type, or reads File too large for an oversized file —
never the offending file's name. -/
theorem claim_C2 (files : List UploadFile) (engineOk : Bool) :
    (((uploadRoute files engineOk).status = 201 ∨ (uploadRoute files engineOk).persisted ≠ []) →
      (1 ≤ files.length ∧ files.length ≤ MAX_FILES ∧ (∀ f ∈ files, fileOk f = true)
        ∧ engineOk = true))
    ∧ ((1 ≤ files.length ∧ files.length ≤ MAX_FILES ∧ (∀ f ∈ files, fileOk f = true)
        ∧ engineOk = true) →
      uploadRoute files engineOk =
        { status := 201, errMsg := none, persisted := files.map UploadFile.originalname,
          tempLeft := [] })
    ∧ (∀ f ∈ files, fileOk f = false →
        (uploadRoute files engineOk).persisted = []
        ∧ (uploadRoute files engineOk).status = 500
        ∧ (files.length ≤ MAX_FILES →
            ∃ g ∈ files, ∃ mg, fileOk g = false ∧ fileCheck g = .error mg
              ∧ (uploadRoute files engineOk).errMsg = some mg))
    ∧ (∀ g mg, fileCheck g = .error mg →
        mg = "File type not allowed: " ++ lowerString (extname g.originalname)
            ++ ". Allowed types: " ++ String.intercalate (", ") ALLOWED_EXTENSIONS
        ∨ mg = "MIME type not allowed: " ++ g.mimetype
        ∨ mg = "File too large") := by
  refine ⟨?_, ?_, ?_, fun g mg hm => fileCheck_error_forms g mg hm⟩
  · intro hgood
    unfold uploadRoute at hgood
    cases h : multerAccept files with
    | error m => rw [h] at hgood; simp [errorHandler] at hgood
    | ok stored =>
      rw [h] at hgood
      simp only at hgood
      obtain ⟨rfl, hlen, hall⟩ := multerAccept_ok_inv files stored h
      cases hse : stored.isEmpty with
      | true =>
        rw [hse] at hgood
        simp at hgood
      | false =>
        rw [hse] at hgood
        cases engineOk with
        | false => simp at hgood
        | true =>
          have : 1 ≤ stored.length := by
            cases stored with
            | nil => simp at hse
            | cons a l => simp
          exact ⟨this, hlen, hall, rfl⟩
  · rintro ⟨hlen1, hlen2, hall, rfl⟩
    have hacc := multerAccept_ok_of files hlen2 hall
    unfold uploadRoute
    rw [hacc]
    have hne : files.isEmpty = false := by
      cases files with
      | nil => simp at hlen1
      | cons a l => rfl
    simp [hne, cleanupFiles_map_tempPath]
  · intro f hf hbad
    cases h : multerAccept files with
    | error m =>
      unfold uploadRoute
      rw [h]
      refine ⟨rfl, rfl, ?_⟩
      intro hlen
      have hfb : filterBatch files = .error m := by
        unfold multerAccept at h
        rwa [if_neg (by omega)] at h
      obtain ⟨g, hg, hbad2, hcg⟩ := filterBatch_error_inv files m hfb
      exact ⟨g, hg, m, hbad2, hcg, rfl⟩
    | ok stored =>
      obtain ⟨rfl, hlen, hall⟩ := multerAccept_ok_inv files stored h
      rw [hall f hf] at hbad
      cases hbad

/-- C2 counterexample: the rejection is no 400-class validation error —
the batch with report.exe is answered 500 — and its message names the
extension, not the file: the message for report.exe does not contain the
file name and is identical to the message for summary.exe; an oversized
pdf fails with the fixed message File too large, which names neither its
extension nor its MIME type nor the file. -/
theorem claim_C2_counterexample :
    (uploadRoute [{ originalname := "report.exe", mimetype := "application/pdf", size := 10 }]
        true).errMsg
      = some ("File type not allowed: .exe. Allowed types: .pdf, .txt, .md, .doc, .docx, .csv, .json")
    ∧ listContains
        ("File type not allowed: .exe. Allowed types: .pdf, .txt, .md, .doc, .docx, .csv, .json").data
        (("report.exe").data) = false
    ∧ (uploadRoute [{ originalname := "report.exe", mimetype := "application/pdf", size := 10 }]
        true).errMsg
      = (uploadRoute [{ originalname := "summary.exe", mimetype := "application/pdf", size := 10 }]
        true).errMsg
    ∧ (uploadRoute [{ originalname := "report.exe", mimetype := "application/pdf", size := 10 }]
        true).status = 500
    ∧ ¬ ((uploadRoute [{ originalname := "report.exe", mimetype := "application/pdf", size := 10 }] true).status < 500)
    ∧ (uploadRoute [{ originalname := "big.pdf", mimetype := "application/pdf", size := 52428801 }] true).errMsg = some ("File too large")
    ∧ listContains (("File too large").data) (("big.pdf").data) = false := by
  refine ⟨?_, ?_, ?_, ?_, ?_, ?_, ?_⟩ <;> decide

/-- C2 witness: one valid pdf file uploads with the engine available, and
one concrete invalid batch persists nothing and is answered 500. -/
theorem claim_C2_witness :
    uploadRoute [{ originalname := "a.pdf", mimetype := "application/pdf", size := 100 }] true
      = { status := 201, errMsg := none, persisted := ["a.pdf"], tempLeft := [] }
    ∧ (uploadRoute [{ originalname := "notes.exe", mimetype := "application/pdf", size := 10 }]
        true).persisted = []
    ∧ (uploadRoute [{ originalname := "notes.exe", mimetype := "application/pdf", size := 10 }]
        true).status = 500 := by
  refine ⟨?_, ?_, ?_⟩
  · have h := (claim_C2 [{ originalname := "a.pdf", mimetype := "application/pdf", size := 100 }]
      true).2.1 ⟨by decide, by decide, by decide, rfl⟩
    simpa using h
  · exact ((claim_C2 [{ originalname := "notes.exe", mimetype := "application/pdf", size := 10 }]
      true).2.2.1 { originalname := "notes.exe", mimetype := "application/pdf", size := 10 }
      (by decide) (by decide)).1
  · exact ((claim_C2 [{ originalname := "notes.exe", mimetype := "application/pdf", size := 10 }]
      true).2.2.1 { originalname := "notes.exe", mimetype := "application/pdf", size := 10 }
      (by decide) (by decide)).2.1

lemma storeDocs_length (docs : List String) (fs : List UploadFile) :
    (storeDocs docs fs).length = docs.length + fs.length := by
  induction fs generalizing docs with
  | nil => simp [storeDocs]
  | cons f fs ih =>
    rw [storeDocs, ih]
    simp
    omega

lemma applyOp_inv (s : BrainState) (op : DocOp)
    (h : s.document_count = s.docs.length) :
    (applyOp s op).document_count = (applyOp s op).docs.length := by
  cases op with
  | upload files =>
    cases hm : multerAccept files with
    | error m => simpa [applyOp, hm] using h
    | ok stored =>
      by_cases hse : stored.isEmpty
      · simpa [applyOp, hm, hse] using h
      · simp only [applyOp, hm, hse, if_false, Bool.false_eq_true]
        rw [storeDocs_length]
        push_cast
        omega
  | remove n =>
    by_cases hc : s.docs.contains n
    · have hmem : n ∈ s.docs := by simpa using hc
      have hlen := List.length_erase_of_mem hmem
      have hpos : 1 ≤ s.docs.length := List.length_pos_of_mem hmem
      simp only [applyOp, hc, if_true, hlen]
      omega
    · have hcm : n ∉ s.docs := by simpa using hc
      simpa [applyOp, hc, hcm] using h

lemma runOps_inv (s : BrainState) (ops : List DocOp)
    (h : s.document_count = s.docs.length) :
    (runOps s ops).document_count = (runOps s ops).docs.length := by
  induction ops generalizing s with
  | nil => simpa [runOps] using h
  | cons op ops ih => simpa [runOps] using ih _ (applyOp_inv s op h)

/-- C1: starting from a fresh brain, after any sequence of upload and
remove operations the document_count equals the number of stored
documents, the count is never negative, and a failed (invalid) upload
leaves every state — count and documents — unchanged. -/
theorem claim_C1 (ops : List DocOp) :
    (runOps initBrain ops).document_count = (runOps initBrain ops).docs.length
    ∧ 0 ≤ (runOps initBrain ops).document_count
    ∧ (∀ s files m, multerAccept files = .error m → applyOp s (.upload files) = s) := by
  have hinv := runOps_inv initBrain ops rfl
  refine ⟨hinv, ?_, ?_⟩
  · rw [hinv]
    exact Int.natCast_nonneg _
  · intro s files m hm
    simp [applyOp, hm]

/-- C1 witness: a concrete valid upload keeps the invariant and a concrete
invalid upload is a no-op on the state. -/
theorem claim_C1_witness :
    (runOps initBrain
        [DocOp.upload [{ originalname := "a.pdf", mimetype := "application/pdf", size := 5 }]]
      ).document_count
      = (runOps initBrain
        [DocOp.upload [{ originalname := "a.pdf", mimetype := "application/pdf", size := 5 }]]
      ).docs.length
    ∧ applyOp initBrain
        (DocOp.upload [{ originalname := "report.exe", mimetype := "application/pdf", size := 5 }])
      = initBrain :=
  ⟨(claim_C1 _).1,
   (claim_C1 []).2.2 initBrain _
     ("File type not allowed: .exe. Allowed types: .pdf, .txt, .md, .doc, .docx, .csv, .json")
     rfl⟩

/-- C4: querying a brain that exists and has document_count zero yields
EmptyBrainError with zero engine invocations; EmptyBrainError maps to
400, a 400-class status, and is distinct from every validation error. -/
theorem claim_C4 (brains : List (String × BrainState)) (id : String) (ans : String)
    (b : BrainState) (hb : brains.lookup id = some b) (hc : b.document_count = 0) :
    queryService brains id ans = { result := .error QueryError.emptyBrain, engineCalls := 0 }
    ∧ QueryError.emptyBrain.httpStatus = 400
    ∧ (400 ≤ QueryError.emptyBrain.httpStatus ∧ QueryError.emptyBrain.httpStatus < 500)
    ∧ (∀ m, QueryError.emptyBrain ≠ QueryError.validation m) := by
  refine ⟨?_, rfl, by decide, fun m h => by cases h⟩
  simp [queryService, hb, hc]

/-- C4 witness: a fresh brain (zero documents) rejects a query without an
engine call. -/
theorem claim_C4_witness :
    queryService [("b1", initBrain)] ("b1") ("answer")
      = { result := .error QueryError.emptyBrain, engineCalls := 0 } :=
  (claim_C4 [("b1", initBrain)] ("b1") ("answer") initBrain (by decide) rfl).1

lemma filter_isTerminal_map_content (l : List String) :
    (l.map StreamEvent.content).filter StreamEvent.isTerminal = [] := by
  induction l with
  | nil => rfl
  | cons a l ih =>
    rw [List.map_cons, List.filter_cons]
    simp [StreamEvent.isTerminal, ih]

lemma filter_isSources_map_content (l : List String) :
    (l.map StreamEvent.content).filter StreamEvent.isSources = [] := by
  induction l with
  | nil => rfl
  | cons a l ih =>
    rw [List.map_cons, List.filter_cons]
    simp [StreamEvent.isSources, ih]

/-- C3: every run of the streaming orchestrator emits exactly one terminal
event, the stream's last event is that terminal; the events are content
events of a prefix of the generated chunks, in order, followed only by
non-content events (so sources never precedes any content); at most one
sources event is ever emitted, and the failure-free run emits it exactly
once (and ends in done). -/
theorem claim_C3 (chunks cites : List String) (failAt : Option Nat) :
    ((streamEvents chunks cites failAt).filter StreamEvent.isTerminal).length = 1
    ∧ (∃ t, (streamEvents chunks cites failAt).getLast? = some t ∧ t.isTerminal = true)
    ∧ (∃ cs tail, streamEvents chunks cites failAt = cs.map StreamEvent.content ++ tail
        ∧ cs <+: chunks ∧ ∀ e ∈ tail, e.isContent = false)
    ∧ ((streamEvents chunks cites failAt).filter StreamEvent.isSources).length ≤ 1
    ∧ (failAt = none →
        ((streamEvents chunks cites failAt).filter StreamEvent.isSources).length = 1
        ∧ (streamEvents chunks cites failAt).getLast? = some StreamEvent.done) := by
  cases failAt with
  | none =>
    have hlast : (streamEvents chunks cites none).getLast? = some StreamEvent.done := by
      show (successEvents chunks cites).getLast? = some StreamEvent.done
      rw [successEvents, show [StreamEvent.sources cites, StreamEvent.done]
            = [StreamEvent.sources cites] ++ [StreamEvent.done] from rfl,
          ← List.append_assoc]
      exact List.getLast?_concat _
    refine ⟨?_, ⟨StreamEvent.done, hlast, rfl⟩,
      ⟨chunks, [StreamEvent.sources cites, StreamEvent.done], rfl, List.prefix_refl _, ?_⟩,
      ?_, fun _ => ⟨?_, hlast⟩⟩
    · show ((successEvents chunks cites).filter StreamEvent.isTerminal).length = 1
      rw [successEvents, List.filter_append, filter_isTerminal_map_content]
      rfl
    · intro e he
      fin_cases he <;> rfl
    · show ((successEvents chunks cites).filter StreamEvent.isSources).length ≤ 1
      rw [successEvents, List.filter_append, filter_isSources_map_content]
      simp [StreamEvent.isSources]
    · show ((successEvents chunks cites).filter StreamEvent.isSources).length = 1
      rw [successEvents, List.filter_append, filter_isSources_map_content]
      rfl
  | some k =>
    by_cases hk : k ≤ chunks.length
    · have hmin : min k (chunks.length + 1) = k := by omega
      have htake : (successEvents chunks cites).take k
          = (chunks.take k).map StreamEvent.content := by
        rw [successEvents, List.take_append_of_le_length (by simpa using hk), List.map_take]
      have hes : streamEvents chunks cites (some k)
          = (chunks.take k).map StreamEvent.content ++ [StreamEvent.error ("stream failed")] := by
        rw [streamEvents, hmin, htake]
      rw [hes]
      refine ⟨?_, ⟨StreamEvent.error ("stream failed"), List.getLast?_concat _, rfl⟩,
        ⟨chunks.take k, [StreamEvent.error ("stream failed")], rfl, List.take_prefix k chunks, ?_⟩,
        ?_, fun h => by cases h⟩
      · rw [List.filter_append, filter_isTerminal_map_content]
        rfl
      · intro e he
        fin_cases he
        rfl
      · rw [List.filter_append, filter_isSources_map_content]
        simp [StreamEvent.isSources]
    · have hmin : min k (chunks.length + 1) = chunks.length + 1 := by omega
      have hlen : chunks.length + 1 = (chunks.map StreamEvent.content).length + 1 := by simp
      have htake : (successEvents chunks cites).take (chunks.length + 1)
          = chunks.map StreamEvent.content ++ [StreamEvent.sources cites] := by
        rw [successEvents, hlen, List.take_append 1]
        rfl
      have hes : streamEvents chunks cites (some k)
          = chunks.map StreamEvent.content
            ++ ([StreamEvent.sources cites] ++ [StreamEvent.error ("stream failed")]) := by
        rw [streamEvents, hmin, htake, List.append_assoc]
      rw [hes]
      refine ⟨?_, ⟨StreamEvent.error ("stream failed"), ?_, rfl⟩,
        ⟨chunks, [StreamEvent.sources cites] ++ [StreamEvent.error ("stream failed")], rfl,
          List.prefix_refl _, ?_⟩,
        ?_, fun h => by cases h⟩
      · rw [List.filter_append, filter_isTerminal_map_content]
        rfl
      · rw [← List.append_assoc]
        exact List.getLast?_concat _
      · intro e he
        fin_cases he <;> rfl
      · rw [List.filter_append, filter_isSources_map_content]
        simp [StreamEvent.isSources]

/-- C3 witness: a concrete failure-free stream and the position of its
events. -/
theorem claim_C3_witness :
    ((streamEvents ["Hello", " world"] ["a.pdf"] none).filter StreamEvent.isSources).length = 1
    ∧ (streamEvents ["Hello", " world"] ["a.pdf"] none).getLast? = some StreamEvent.done
    ∧ ((streamEvents ["Hello", " world"] ["a.pdf"] none).filter StreamEvent.isTerminal).length
      = 1 :=
  ⟨((claim_C3 ["Hello", " world"] ["a.pdf"] none).2.2.2.2 rfl).1,
   ((claim_C3 ["Hello", " world"] ["a.pdf"] none).2.2.2.2 rfl).2,
   (claim_C3 ["Hello", " world"] ["a.pdf"] none).1⟩

lemma isUnreserved_ne_pct (c : Char) (hc : isUnreservedURIChar c = true) : ¬ (c = '%') := by
  intro h
  subst h
  exact absurd hc (by decide)

lemma hexVal_hexDigitUpper (n : Nat) (h : n < 16) : hexVal (hexDigitUpper n) = some n := by
  interval_cases n <;> decide

lemma tokenize_lit (c : Char) (hc : isUnreservedURIChar c = true) (rest : List Char) :
    tokenize (c :: rest) = (tokenize rest).map (fun ts => URIToken.lit c :: ts) := by
  rw [tokenize.eq_def]
  dsimp only
  rw [if_neg (isUnreserved_ne_pct c hc)]

lemma tokenize_pct (b : Nat) (hb : b < 256) (rest : List Char) :
    tokenize (pctEncodeByte b ++ rest) = (tokenize rest).map (fun ts => URIToken.byte b :: ts) := by
  have h1 : hexVal (hexDigitUpper (b / 16)) = some (b / 16) := hexVal_hexDigitUpper _ (by omega)
  have h2 : hexVal (hexDigitUpper (b % 16)) = some (b % 16) := hexVal_hexDigitUpper _ (by omega)
  show tokenize ('%' :: hexDigitUpper (b / 16) :: hexDigitUpper (b % 16) :: rest) = _
  rw [tokenize.eq_def]
  dsimp only
  rw [if_pos rfl]
  rw [h1, h2]
  dsimp only
  have harith : 16 * (b / 16) + b % 16 = b := by omega
  simp only [harith]

lemma tokenize_bytes (bs : List Nat) (hb : ∀ b ∈ bs, b < 256) (rest : List Char) :
    tokenize (bs.flatMap pctEncodeByte ++ rest)
      = (tokenize rest).map (fun ts => bs.map URIToken.byte ++ ts) := by
  induction bs with
  | nil => simp
  | cons b bs ih =>
    rw [List.flatMap_cons, List.append_assoc, tokenize_pct b (hb b (by simp)) _,
        ih (fun x hx => hb x (by simp [hx])), Option.map_map]
    rfl

lemma char_valid_cases (c : Char) :
    c.toNat < 55296 ∨ (57344 ≤ c.toNat ∧ c.toNat < 1114112) := c.valid

lemma utf8Bytes_lt (c : Char) : ∀ b ∈ utf8Bytes c, b < 256 := by
  have hlt : c.toNat < 1114112 := by
    rcases char_valid_cases c with h | ⟨h1, h2⟩
    · omega
    · exact h2
  intro b hb
  simp only [utf8Bytes] at hb
  split_ifs at hb with h1 h2 h3 <;> simp at hb <;> omega

lemma decodeTokens_lit (c : Char) (ts : List URIToken) :
    decodeTokens (URIToken.lit c :: ts) = (decodeTokens ts).map (fun s => c :: s) := by
  rw [decodeTokens]

lemma decodeTokens_byte1 (n : Nat) (h : n < 128) (ts : List URIToken) :
    decodeTokens (URIToken.byte n :: ts) = (decodeTokens ts).map (fun s => Char.ofNat n :: s) := by
  rw [decodeTokens, if_pos h]

lemma decodeTokens_byte2 (n : Nat) (h1 : 128 ≤ n) (h2 : n < 2048) (ts : List URIToken) :
    decodeTokens (URIToken.byte (192 + n / 64) :: URIToken.byte (128 + n % 64) :: ts)
      = (decodeTokens ts).map (fun s => Char.ofNat n :: s) := by
  rw [decodeTokens, if_neg (by omega), if_neg (by omega), if_pos (by omega)]
  rw [decodeCont]
  dsimp only [contVal]
  rw [if_pos (by omega)]
  dsimp only
  have harith : (192 + n / 64 - 192) * 64 + (128 + n % 64) % 64 = n := by omega
  rw [harith, decodeCont, if_pos (by omega)]

lemma decodeTokens_byte3 (n : Nat) (h1 : 2048 ≤ n) (h2 : n < 65536)
    (hv : n < 55296 ∨ 57344 ≤ n) (ts : List URIToken) :
    decodeTokens (URIToken.byte (224 + n / 4096) :: URIToken.byte (128 + n / 64 % 64)
        :: URIToken.byte (128 + n % 64) :: ts)
      = (decodeTokens ts).map (fun s => Char.ofNat n :: s) := by
  rw [decodeTokens, if_neg (by omega), if_neg (by omega), if_neg (by omega), if_pos (by omega)]
  rw [decodeCont]
  dsimp only [contVal]
  rw [if_pos (by omega)]
  dsimp only
  rw [decodeCont]
  dsimp only [contVal]
  rw [if_pos (by omega)]
  dsimp only
  have harith : ((224 + n / 4096 - 224) * 64 + (128 + n / 64 % 64) % 64) * 64
      + (128 + n % 64) % 64 = n := by omega
  rw [harith, decodeCont, if_pos (by omega)]

lemma decodeTokens_byte4 (n : Nat) (h1 : 65536 ≤ n) (h2 : n < 1114112) (ts : List URIToken) :
    decodeTokens (URIToken.byte (240 + n / 262144) :: URIToken.byte (128 + n / 4096 % 64)
        :: URIToken.byte (128 + n / 64 % 64) :: URIToken.byte (128 + n % 64) :: ts)
      = (decodeTokens ts).map (fun s => Char.ofNat n :: s) := by
  rw [decodeTokens, if_neg (by omega), if_neg (by omega), if_neg (by omega), if_neg (by omega),
      if_pos (by omega)]
  rw [decodeCont]
  dsimp only [contVal]
  rw [if_pos (by omega)]
  dsimp only
  rw [decodeCont]
  dsimp only [contVal]
  rw [if_pos (by omega)]
  dsimp only
  rw [decodeCont]
  dsimp only [contVal]
  rw [if_pos (by omega)]
  dsimp only
  have harith : (((240 + n / 262144 - 240) * 64 + (128 + n / 4096 % 64) % 64) * 64
      + (128 + n / 64 % 64) % 64) * 64 + (128 + n % 64) % 64 = n := by omega
  rw [harith, decodeCont, if_pos (by omega)]

lemma decodeTokens_utf8 (c : Char) (ts : List URIToken) :
    decodeTokens ((utf8Bytes c).map URIToken.byte ++ ts) = (decodeTokens ts).map (fun s => c :: s) := by
  by_cases h1 : c.toNat < 128
  · rw [show utf8Bytes c = [c.toNat] from by simp [utf8Bytes, h1]]
    simp only [List.map_cons, List.map_nil, List.cons_append, List.nil_append]
    rw [decodeTokens_byte1 _ h1, Char.ofNat_toNat]
  · by_cases h2 : c.toNat < 2048
    · rw [show utf8Bytes c = [192 + c.toNat / 64, 128 + c.toNat % 64] from by
        simp [utf8Bytes, h1, h2]]
      simp only [List.map_cons, List.map_nil, List.cons_append, List.nil_append]
      rw [decodeTokens_byte2 c.toNat (by omega) h2, Char.ofNat_toNat]
    · by_cases h3 : c.toNat < 65536
      · have hv3 : c.toNat < 55296 ∨ 57344 ≤ c.toNat := by
          rcases char_valid_cases c with h | ⟨ha, hb⟩
          · exact Or.inl h
          · exact Or.inr ha
        rw [show utf8Bytes c
            = [224 + c.toNat / 4096, 128 + c.toNat / 64 % 64, 128 + c.toNat % 64] from by
          simp [utf8Bytes, h1, h2, h3]]
        simp only [List.map_cons, List.map_nil, List.cons_append, List.nil_append]
        rw [decodeTokens_byte3 c.toNat (by omega) h3 hv3, Char.ofNat_toNat]
      · have h4 : c.toNat < 1114112 := by
          rcases char_valid_cases c with h | ⟨ha, hb⟩
          · omega
          · exact hb
        rw [show utf8Bytes c
            = [240 + c.toNat / 262144, 128 + c.toNat / 4096 % 64, 128 + c.toNat / 64 % 64,
               128 + c.toNat % 64] from by simp [utf8Bytes, h1, h2, h3]]
        simp only [List.map_cons, List.map_nil, List.cons_append, List.nil_append]
        rw [decodeTokens_byte4 c.toNat (by omega) h4, Char.ofNat_toNat]

lemma decode_encode (s : List Char) :
    decodeURIComponent (encodeURIComponent s) = some s := by
  induction s with
  | nil =>
    have h0 : tokenize ([] : List Char) = some [] := by rw [tokenize]
    have h1 : decodeTokens ([] : List URIToken) = some [] := by rw [decodeTokens]
    show decodeURIComponent [] = some []
    rw [decodeURIComponent, h0]
    exact h1
  | cons c cs ih =>
    have hexp : encodeURIComponent (c :: cs) = encodeChar c ++ encodeURIComponent cs := by
      rw [encodeURIComponent, List.flatMap_cons]
      rfl
    rw [hexp, decodeURIComponent]
    rw [decodeURIComponent] at ih
    cases htok : tokenize (encodeURIComponent cs) with
    | none => rw [htok] at ih; simp at ih
    | some ts =>
      rw [htok] at ih
      have ih2 : decodeTokens ts = some cs := ih
      by_cases hc : isUnreservedURIChar c
      · rw [show encodeChar c = [c] from by simp [encodeChar, hc]]
        show (tokenize (c :: encodeURIComponent cs)).bind decodeTokens = some (c :: cs)
        rw [tokenize_lit c hc, htok]
        show decodeTokens (URIToken.lit c :: ts) = some (c :: cs)
        rw [decodeTokens_lit, ih2]
        rfl
      · rw [show encodeChar c = (utf8Bytes c).flatMap pctEncodeByte from by
          simp [encodeChar, hc]]
        rw [tokenize_bytes (utf8Bytes c) (utf8Bytes_lt c), htok]
        show decodeTokens ((utf8Bytes c).map URIToken.byte ++ ts) = some (c :: cs)
        rw [decodeTokens_utf8, ih2]
        rfl

lemma encodeChar_segment_safe (c : Char) :
    ∀ d ∈ encodeChar c, d ≠ '/' ∧ d ≠ '?' ∧ d ≠ '#' ∧ d ≠ ' ' := by
  intro d hd
  rw [encodeChar] at hd
  split_ifs at hd with hc
  · simp only [List.mem_singleton] at hd
    subst hd
    refine ⟨?_, ?_, ?_, ?_⟩ <;> (intro h; subst h; exact absurd hc (by decide))
  · rw [List.mem_flatMap] at hd
    obtain ⟨b, hb, hdb⟩ := hd
    have hb256 : b < 256 := utf8Bytes_lt c b hb
    have hx : ∀ k, k < 16 → hexDigitUpper k ≠ '/' ∧ hexDigitUpper k ≠ '?'
        ∧ hexDigitUpper k ≠ '#' ∧ hexDigitUpper k ≠ ' ' := by
      intro k hk
      interval_cases k <;> decide
    rw [pctEncodeByte] at hdb
    simp only [List.mem_cons, List.not_mem_nil, or_false] at hdb
    rcases hdb with rfl | rfl | rfl
    · decide
    · exact hx _ (by omega)
    · exact hx _ (by omega)

/-- C10: QuivrClient.getDocument and QuivrClient.deleteDocument build the
same request path for the same brain id and document name; the name is
percent-encoded exactly once, so decoding the path segment yields exactly
the original name for every name, and the encoded segment never contains
the URL-reserved characters slash, question mark, hash or space. -/
theorem claim_C10 (brainId documentName : List Char) :
    getDocumentRequestPath brainId documentName = deleteDocumentRequestPath brainId documentName
    ∧ decodeURIComponent (encodeURIComponent documentName) = some documentName
    ∧ ∀ d ∈ encodeURIComponent documentName, d ≠ '/' ∧ d ≠ '?' ∧ d ≠ '#' ∧ d ≠ ' ' := by
  refine ⟨rfl, decode_encode documentName, ?_⟩
  intro d hd
  rw [encodeURIComponent, List.mem_flatMap] at hd
  obtain ⟨c, hc, hdc⟩ := hd
  exact encodeChar_segment_safe c d hdc

/-- C10 witness: a name with a slash, a space and a dot round-trips; the
percent sign is in its encoding and is none of the reserved characters. -/
theorem claim_C10_witness :
    decodeURIComponent (encodeURIComponent (("a/b c.pdf").data)) = some (("a/b c.pdf").data)
    ∧ (Char.ofNat 37 ≠ '/' ∧ Char.ofNat 37 ≠ '?' ∧ Char.ofNat 37 ≠ '#' ∧ Char.ofNat 37 ≠ ' ') :=
  ⟨(claim_C10 [] (("a/b c.pdf").data)).2.1,
   (claim_C10 [] (("a/b c.pdf").data)).2.2 (Char.ofNat 37) (by decide)⟩

end Nexus
